import Mathlib

/-
  Shallow embedding of the NovaFund subscription-pool contract
  (src/contracts/subscription-pool/src/lib.rs).

  Modelling choices:
  - `Address` is an abstract identity, embedded as `Nat`.
  - `u64` values (pool ids, timestamps) are `Nat`; `i128` amounts are `Int`;
    `u32` subscriber counts are `Nat`.  The Soroban host traps checked
    arithmetic overflow, aborting the invocation, so plain integer
    arithmetic is the faithful semantics of a completed call.
  - The host storage (`DataKey::Pool`, `DataKey::Subscription`,
    `DataKey::PoolCount`) is a `State` record with one map per key shape;
    the key shapes of the `DataKey` discriminated union never collide.
  - `env.ledger().timestamp()` is an explicit `now : Nat` argument to the
    operations that read it.
  - Fallible entry points return `Except Error State`; an error aborts the
    invocation atomically, which `applyOp` models by leaving the state
    unchanged.  `require_auth` is host-enforced and carries no local logic.
-/

namespace NovaFund

/-- Billing period of a subscription (`SubscriptionPeriod` in lib.rs). -/
inductive SubscriptionPeriod where
  | Weekly
  | Monthly
  | Quarterly
  deriving DecidableEq, Repr

/-- Abstract Soroban `Address`, embedded as a bare identity. -/
abbrev Address := Nat

/-- `Pool` record from lib.rs. -/
structure Pool where
  pool_id : Nat
  name : String
  token : Address
  total_balance : Int
  subscriber_count : Nat
  deriving DecidableEq, Repr

/-- `Subscription` record from lib.rs. -/
structure Subscription where
  subscriber : Address
  pool_id : Nat
  amount : Int
  period : SubscriptionPeriod
  last_payment : Nat
  deriving DecidableEq, Repr

/-- Contract error codes (`Error` enum in lib.rs). -/
inductive Error where
  | BelowMinimum
  | InsufficientBalance
  | PeriodNotElapsed
  | PoolNotFound
  | SubscriptionNotFound
  deriving DecidableEq, Repr

/-- `const MIN_SUBSCRIPTION: i128 = 100_000_000`. -/
def MIN_SUBSCRIPTION : Int := 100000000

/-- The persistent store: one map per `DataKey` variant. -/
structure State where
  pools : Nat → Option Pool
  subs : Nat → Address → Option Subscription
  poolCount : Option Nat

/-- The empty store: no pools, no subscriptions, no counter entry. -/
def State.empty : State :=
  { pools := fun _ => none, subs := fun _ _ => none, poolCount := none }

/-- `get_pool`: `storage.get(Pool(pool_id)).ok_or(Error::PoolNotFound)`. -/
def get_pool (st : State) (pool_id : Nat) : Except Error Pool :=
  match st.pools pool_id with
  | some p => .ok p
  | none => .error .PoolNotFound

/-- `get_subscription`: lookup keyed by `(pool_id, subscriber)`,
    `SubscriptionNotFound` if absent. -/
def get_subscription (st : State) (pool_id : Nat) (subscriber : Address) :
    Except Error Subscription :=
  match st.subs pool_id subscriber with
  | some s => .ok s
  | none => .error .SubscriptionNotFound

/-- `create_pool`: read the counter (default 0), increment, store a fresh
    pool with zero balance and zero subscribers under the new id, store the
    new counter, return the id. -/
def create_pool (st : State) (name : String) (token : Address) : Nat × State :=
  let count := st.poolCount.getD 0 + 1
  let pool : Pool :=
    { pool_id := count, name := name, token := token,
      total_balance := 0, subscriber_count := 0 }
  (count,
    { pools := fun i => if i = count then some pool else st.pools i,
      subs := st.subs,
      poolCount := some count })

/-- `subscribe`: reject `amount < MIN_SUBSCRIPTION` with `BelowMinimum`,
    then load the pool via `get_pool` (propagating `PoolNotFound`), write a
    `Subscription` with `last_payment = now` under `(pool_id, subscriber)`,
    increment `subscriber_count`, write the pool back. -/
def subscribe (st : State) (now : Nat) (pool_id : Nat) (subscriber : Address)
    (amount : Int) (period : SubscriptionPeriod) : Except Error State :=
  if amount < MIN_SUBSCRIPTION then
    .error .BelowMinimum
  else
    match get_pool st pool_id with
    | .error e => .error e
    | .ok pool =>
      let subscription : Subscription :=
        { subscriber := subscriber, pool_id := pool_id, amount := amount,
          period := period, last_payment := now }
      let pool' : Pool := { pool with subscriber_count := pool.subscriber_count + 1 }
      .ok { pools := fun i => if i = pool_id then some pool' else st.pools i,
            subs := fun i a =>
              if i = pool_id ∧ a = subscriber then some subscription else st.subs i a,
            poolCount := st.poolCount }

/-- The `match sub.period` table inside `process_deposits`. -/
def seconds_in_period : SubscriptionPeriod → Nat
  | .Weekly => 604800
  | .Monthly => 2592000
  | .Quarterly => 7776000

/-- `process_deposits`: load the subscription (else `SubscriptionNotFound`),
    load the pool via `get_pool` (else `PoolNotFound`), reject with
    `PeriodNotElapsed` if `now < last_payment + seconds_in_period`, else
    credit `total_balance` by `amount`, set `last_payment = now`, write both
    records back. -/
def process_deposits (st : State) (now : Nat) (pool_id : Nat)
    (subscriber : Address) : Except Error State :=
  match st.subs pool_id subscriber with
  | none => .error .SubscriptionNotFound
  | some sub =>
    match get_pool st pool_id with
    | .error e => .error e
    | .ok pool =>
      if now < sub.last_payment + seconds_in_period sub.period then
        .error .PeriodNotElapsed
      else
        let pool' : Pool := { pool with total_balance := pool.total_balance + sub.amount }
        let sub' : Subscription := { sub with last_payment := now }
        .ok { pools := fun i => if i = pool_id then some pool' else st.pools i,
              subs := fun i a =>
                if i = pool_id ∧ a = subscriber then some sub' else st.subs i a,
              poolCount := st.poolCount }

/-- `withdraw`: load the pool via `get_pool` (else `PoolNotFound`), reject
    with `InsufficientBalance` if `amount > total_balance`, else debit
    `total_balance` by `amount` and write the pool back.  The `subscriber`
    argument is only used for host authorization. -/
def withdraw (st : State) (pool_id : Nat) (subscriber : Address)
    (amount : Int) : Except Error State :=
  match get_pool st pool_id with
  | .error e => .error e
  | .ok pool =>
    if amount > pool.total_balance then
      .error .InsufficientBalance
    else
      let pool' : Pool := { pool with total_balance := pool.total_balance - amount }
      .ok { pools := fun i => if i = pool_id then some pool' else st.pools i,
            subs := st.subs,
            poolCount := st.poolCount }

/-- One contract invocation, with its ledger timestamp where the entry
    point reads it. -/
inductive Op where
  | create_pool (name : String) (token : Address)
  | subscribe (now : Nat) (pool_id : Nat) (subscriber : Address)
      (amount : Int) (period : SubscriptionPeriod)
  | process_deposits (now : Nat) (pool_id : Nat) (subscriber : Address)
  | withdraw (pool_id : Nat) (subscriber : Address) (amount : Int)

/-- Apply one invocation: a failing invocation aborts atomically, leaving
    the store unchanged. -/
def applyOp (st : State) : Op → State
  | .create_pool name token => (create_pool st name token).2
  | .subscribe now pool_id subscriber amount period =>
    match subscribe st now pool_id subscriber amount period with
    | .ok st' => st'
    | .error _ => st
  | .process_deposits now pool_id subscriber =>
    match process_deposits st now pool_id subscriber with
    | .ok st' => st'
    | .error _ => st
  | .withdraw pool_id subscriber amount =>
    match withdraw st pool_id subscriber amount with
    | .ok st' => st'
    | .error _ => st

/-- Run a sequence of invocations from the empty store. -/
def run (ops : List Op) : State := ops.foldl applyOp State.empty

/-- A sequence of `create_pool` calls, collecting the returned ids. -/
def createSeq : List (String × Address) → State → List Nat × State
  | [], st => ([], st)
  | (name, token) :: rest, st =>
    let r := create_pool st name token
    let r' := createSeq rest r.2
    (r.1 :: r'.1, r'.2)

/-- Store invariant: every stored pool has a non-negative balance and every
    stored subscription carries at least the minimum amount. -/
def StoreInv (st : State) : Prop :=
  (∀ i p, st.pools i = some p → 0 ≤ p.total_balance) ∧
  (∀ i a s, st.subs i a = some s → MIN_SUBSCRIPTION ≤ s.amount)

/-- Key invariant: every occupied pool key is at most the stored counter. -/
def KeysBounded (st : State) : Prop :=
  ∀ i p, st.pools i = some p → i ≤ st.poolCount.getD 0

/-- Concrete fixture: a pool with one subscriber and zero balance. -/
def poolA : Pool :=
  { pool_id := 1, name := "A", token := 5, total_balance := 0, subscriber_count := 1 }

/-- Concrete fixture: a weekly subscription of 200,000,000 enrolled at time 0. -/
def subA : Subscription :=
  { subscriber := 7, pool_id := 1, amount := 200000000,
    period := SubscriptionPeriod.Weekly, last_payment := 0 }

/-- Concrete fixture: a store holding exactly `poolA` and `subA`. -/
def stA : State :=
  { pools := fun i => if i = 1 then some poolA else none,
    subs := fun i a => if i = 1 ∧ a = 7 then some subA else none,
    poolCount := some 1 }

/-- Concrete fixture: the pool record produced by the first `create_pool`. -/
def poolInit : Pool :=
  { pool_id := 1, name := "A", token := 5, total_balance := 0, subscriber_count := 0 }

lemma subscribe_spec (st : State) (now pid : Nat) (a : Address) (amount : Int)
    (period : SubscriptionPeriod) (pool : Pool) (hp : st.pools pid = some pool) :
    subscribe st now pid a amount period =
      if amount < MIN_SUBSCRIPTION then Except.error Error.BelowMinimum
      else Except.ok
        { pools := fun i =>
            if i = pid then some { pool with subscriber_count := pool.subscriber_count + 1 }
            else st.pools i,
          subs := fun i x =>
            if i = pid ∧ x = a then
              some { subscriber := a, pool_id := pid, amount := amount,
                     period := period, last_payment := now }
            else st.subs i x,
          poolCount := st.poolCount } := by
  simp only [subscribe, get_pool, hp]

lemma process_deposits_spec (st : State) (now pid : Nat) (a : Address)
    (sub : Subscription) (pool : Pool)
    (hs : st.subs pid a = some sub) (hp : st.pools pid = some pool) :
    process_deposits st now pid a =
      if now < sub.last_payment + seconds_in_period sub.period then
        Except.error Error.PeriodNotElapsed
      else Except.ok
        { pools := fun i =>
            if i = pid then some { pool with total_balance := pool.total_balance + sub.amount }
            else st.pools i,
          subs := fun i x =>
            if i = pid ∧ x = a then some { sub with last_payment := now }
            else st.subs i x,
          poolCount := st.poolCount } := by
  simp only [process_deposits, get_pool, hs, hp]

lemma withdraw_spec (st : State) (pid : Nat) (a : Address) (amount : Int)
    (pool : Pool) (hp : st.pools pid = some pool) :
    withdraw st pid a amount =
      if amount > pool.total_balance then Except.error Error.InsufficientBalance
      else Except.ok
        { pools := fun i =>
            if i = pid then some { pool with total_balance := pool.total_balance - amount }
            else st.pools i,
          subs := st.subs,
          poolCount := st.poolCount } := by
  simp only [withdraw, get_pool, hp]

lemma applyOp_subscribe_error (st : State) (now pid : Nat) (a : Address)
    (amount : Int) (period : SubscriptionPeriod) (e : Error)
    (h : subscribe st now pid a amount period = Except.error e) :
    applyOp st (Op.subscribe now pid a amount period) = st := by
  simp [applyOp, h]

lemma applyOp_process_deposits_error (st : State) (now pid : Nat) (a : Address)
    (e : Error) (h : process_deposits st now pid a = Except.error e) :
    applyOp st (Op.process_deposits now pid a) = st := by
  simp [applyOp, h]

lemma applyOp_withdraw_error (st : State) (pid : Nat) (a : Address)
    (amount : Int) (e : Error) (h : withdraw st pid a amount = Except.error e) :
    applyOp st (Op.withdraw pid a amount) = st := by
  simp [applyOp, h]

lemma subscribe_ok_inv {st st' : State} {now pid : Nat} {a : Address}
    {amount : Int} {period : SubscriptionPeriod}
    (h : subscribe st now pid a amount period = Except.ok st') :
    ∃ pool, st.pools pid = some pool ∧ MIN_SUBSCRIPTION ≤ amount ∧
      st' = { pools := fun i =>
                if i = pid then some { pool with subscriber_count := pool.subscriber_count + 1 }
                else st.pools i,
              subs := fun i x =>
                if i = pid ∧ x = a then
                  some { subscriber := a, pool_id := pid, amount := amount,
                         period := period, last_payment := now }
                else st.subs i x,
              poolCount := st.poolCount } := by
  by_cases hmin : amount < MIN_SUBSCRIPTION
  · simp [subscribe, hmin] at h
  · cases hps : st.pools pid with
    | none => simp [subscribe, get_pool, hmin, hps] at h
    | some pool =>
      rw [subscribe_spec st now pid a amount period pool hps, if_neg hmin] at h
      exact ⟨pool, rfl, not_lt.mp hmin, (Except.ok.injEq _ _).mp h.symm⟩

lemma process_deposits_ok_inv {st st' : State} {now pid : Nat} {a : Address}
    (h : process_deposits st now pid a = Except.ok st') :
    ∃ sub pool, st.subs pid a = some sub ∧ st.pools pid = some pool ∧
      sub.last_payment + seconds_in_period sub.period ≤ now ∧
      st' = { pools := fun i =>
                if i = pid then some { pool with total_balance := pool.total_balance + sub.amount }
                else st.pools i,
              subs := fun i x =>
                if i = pid ∧ x = a then some { sub with last_payment := now }
                else st.subs i x,
              poolCount := st.poolCount } := by
  cases hss : st.subs pid a with
  | none => simp [process_deposits, hss] at h
  | some sub =>
    cases hps : st.pools pid with
    | none => simp [process_deposits, get_pool, hss, hps] at h
    | some pool =>
      rw [process_deposits_spec st now pid a sub pool hss hps] at h
      by_cases hlt : now < sub.last_payment + seconds_in_period sub.period
      · rw [if_pos hlt] at h; cases h
      · rw [if_neg hlt] at h
        exact ⟨sub, pool, rfl, rfl, not_lt.mp hlt, (Except.ok.injEq _ _).mp h.symm⟩

lemma withdraw_ok_inv {st st' : State} {pid : Nat} {a : Address} {amount : Int}
    (h : withdraw st pid a amount = Except.ok st') :
    ∃ pool, st.pools pid = some pool ∧ amount ≤ pool.total_balance ∧
      st' = { pools := fun i =>
                if i = pid then some { pool with total_balance := pool.total_balance - amount }
                else st.pools i,
              subs := st.subs,
              poolCount := st.poolCount } := by
  cases hps : st.pools pid with
  | none => simp [withdraw, get_pool, hps] at h
  | some pool =>
    rw [withdraw_spec st pid a amount pool hps] at h
    by_cases hgt : amount > pool.total_balance
    · rw [if_pos hgt] at h; cases h
    · rw [if_neg hgt] at h
      exact ⟨pool, rfl, not_lt.mp hgt, (Except.ok.injEq _ _).mp h.symm⟩

lemma storeInv_empty : StoreInv State.empty := by
  refine ⟨?_, ?_⟩
  · intro i p h
    simp [State.empty] at h
  · intro i a s h
    simp [State.empty] at h

lemma min_subscription_pos : (0 : Int) < MIN_SUBSCRIPTION := by
  norm_num [MIN_SUBSCRIPTION]

lemma storeInv_applyOp (st : State) (op : Op) (h : StoreInv st) :
    StoreInv (applyOp st op) := by
  obtain ⟨hpools, hsubs⟩ := h
  cases op with
  | create_pool name token =>
    refine ⟨?_, ?_⟩
    · intro i p hip
      simp only [applyOp, create_pool] at hip
      split at hip
      · cases hip; simp
      · exact hpools i p hip
    · intro i a s his
      simp only [applyOp, create_pool] at his
      exact hsubs i a s his
  | subscribe now pid a amount period =>
    cases hc : subscribe st now pid a amount period with
    | error e =>
      simp only [applyOp, hc]
      exact ⟨hpools, hsubs⟩
    | ok st' =>
      obtain ⟨pool, hps, hmin, hst⟩ := subscribe_ok_inv hc
      simp only [applyOp, hc, hst]
      refine ⟨?_, ?_⟩
      · intro i p hip
        simp only at hip
        split at hip
        · cases hip; simpa using hpools pid pool hps
        · exact hpools i p hip
      · intro i x s his
        simp only at his
        split at his
        · cases his; simpa using hmin
        · exact hsubs i x s his
  | process_deposits now pid a =>
    cases hc : process_deposits st now pid a with
    | error e =>
      simp only [applyOp, hc]
      exact ⟨hpools, hsubs⟩
    | ok st' =>
      obtain ⟨sub, pool, hss, hps, helapsed, hst⟩ := process_deposits_ok_inv hc
      simp only [applyOp, hc, hst]
      refine ⟨?_, ?_⟩
      · intro i p hip
        simp only at hip
        split at hip
        · cases hip
          have h0 : 0 ≤ pool.total_balance := hpools pid pool hps
          have h1 : (0 : Int) ≤ sub.amount :=
            le_trans min_subscription_pos.le (hsubs pid a sub hss)
          simpa using add_nonneg h0 h1
        · exact hpools i p hip
      · intro i x s his
        simp only at his
        split at his
        · cases his; simpa using hsubs pid a sub hss
        · exact hsubs i x s his
  | withdraw pid a amount =>
    cases hc : withdraw st pid a amount with
    | error e =>
      simp only [applyOp, hc]
      exact ⟨hpools, hsubs⟩
    | ok st' =>
      obtain ⟨pool, hps, hle, hst⟩ := withdraw_ok_inv hc
      simp only [applyOp, hc, hst]
      refine ⟨?_, ?_⟩
      · intro i p hip
        simp only at hip
        split at hip
        · cases hip; simpa using sub_nonneg.mpr hle
        · exact hpools i p hip
      · intro i x s his
        simp only at his
        exact hsubs i x s his

lemma storeInv_foldl (ops : List Op) (st : State) (h : StoreInv st) :
    StoreInv (List.foldl applyOp st ops) := by
  induction ops generalizing st with
  | nil => simpa using h
  | cons op rest ih => exact ih (applyOp st op) (storeInv_applyOp st op h)

lemma storeInv_run (ops : List Op) : StoreInv (run ops) :=
  storeInv_foldl ops State.empty storeInv_empty

lemma keysBounded_empty : KeysBounded State.empty := by
  intro i p h
  simp [State.empty] at h

lemma keysBounded_applyOp (st : State) (op : Op) (h : KeysBounded st) :
    KeysBounded (applyOp st op) := by
  cases op with
  | create_pool name token =>
    intro i p hip
    simp only [applyOp, create_pool, Option.getD_some] at hip ⊢
    split at hip
    · omega
    · exact le_trans (h i p hip) (by omega)
  | subscribe now pid a amount period =>
    cases hc : subscribe st now pid a amount period with
    | error e => simpa only [applyOp, hc] using h
    | ok st' =>
      obtain ⟨pool, hps, hmin, hst⟩ := subscribe_ok_inv hc
      intro i p hip
      simp only [applyOp, hc, hst] at hip ⊢
      split at hip
      · subst i; exact h pid pool hps
      · exact h i p hip
  | process_deposits now pid a =>
    cases hc : process_deposits st now pid a with
    | error e => simpa only [applyOp, hc] using h
    | ok st' =>
      obtain ⟨sub, pool, hss, hps, helapsed, hst⟩ := process_deposits_ok_inv hc
      intro i p hip
      simp only [applyOp, hc, hst] at hip ⊢
      split at hip
      · subst i; exact h pid pool hps
      · exact h i p hip
  | withdraw pid a amount =>
    cases hc : withdraw st pid a amount with
    | error e => simpa only [applyOp, hc] using h
    | ok st' =>
      obtain ⟨pool, hps, hle, hst⟩ := withdraw_ok_inv hc
      intro i p hip
      simp only [applyOp, hc, hst] at hip ⊢
      split at hip
      · subst i; exact h pid pool hps
      · exact h i p hip

lemma keysBounded_foldl (ops : List Op) (st : State) (h : KeysBounded st) :
    KeysBounded (List.foldl applyOp st ops) := by
  induction ops generalizing st with
  | nil => simpa using h
  | cons op rest ih => exact ih (applyOp st op) (keysBounded_applyOp st op h)

lemma keysBounded_run (ops : List Op) : KeysBounded (run ops) :=
  keysBounded_foldl ops State.empty keysBounded_empty

lemma run_append_single (ops : List Op) (op : Op) :
    run (ops ++ [op]) = applyOp (run ops) op := by
  simp [run, List.foldl_append]

lemma createSeq_ids (args : List (String × Address)) (st : State) :
    (createSeq args st).1 = List.range' (st.poolCount.getD 0 + 1) args.length := by
  induction args generalizing st with
  | nil => simp [createSeq]
  | cons hd tl ih =>
    obtain ⟨n, t⟩ := hd
    simp only [createSeq, List.length_cons, List.range'_succ]
    rw [ih]
    simp [create_pool]

lemma process_deposits_ok_effects (st : State) (now pid : Nat) (a : Address)
    (sub : Subscription) (pool : Pool)
    (hs : st.subs pid a = some sub) (hp : st.pools pid = some pool)
    (helapsed : sub.last_payment + seconds_in_period sub.period ≤ now) :
    process_deposits st now pid a = Except.ok
      { pools := fun i =>
          if i = pid then some { pool with total_balance := pool.total_balance + sub.amount }
          else st.pools i,
        subs := fun i x =>
          if i = pid ∧ x = a then some { sub with last_payment := now }
          else st.subs i x,
        poolCount := st.poolCount } := by
  rw [process_deposits_spec st now pid a sub pool hs hp, if_neg (not_lt.mpr helapsed)]

/-- Claim C1: for a stored subscription and pool, `process_deposits` fails
with `PeriodNotElapsed` exactly when `now < last_payment + period_seconds`,
where the period seconds are 604800 / 2592000 / 7776000 for Weekly /
Monthly / Quarterly; the exact boundary instant succeeds; and on that
error the invocation leaves the store (hence the pool's `total_balance`
and the subscription's `last_payment`) unchanged. -/
theorem process_deposits_period_gate
    (st : State) (now pid : Nat) (a : Address) (sub : Subscription) (pool : Pool)
    (hs : st.subs pid a = some sub) (hp : st.pools pid = some pool) :
    ((process_deposits st now pid a = Except.error Error.PeriodNotElapsed) ↔
      now < sub.last_payment + seconds_in_period sub.period)
    ∧ (seconds_in_period SubscriptionPeriod.Weekly = 604800
        ∧ seconds_in_period SubscriptionPeriod.Monthly = 2592000
        ∧ seconds_in_period SubscriptionPeriod.Quarterly = 7776000)
    ∧ (now = sub.last_payment + seconds_in_period sub.period →
        ∃ st', process_deposits st now pid a = Except.ok st')
    ∧ (process_deposits st now pid a = Except.error Error.PeriodNotElapsed →
        applyOp st (Op.process_deposits now pid a) = st) := by
  have hspec := process_deposits_spec st now pid a sub pool hs hp
  refine ⟨⟨?_, ?_⟩, by simp [seconds_in_period], ?_, ?_⟩
  · intro herr
    by_contra hge
    rw [hspec, if_neg hge] at herr
    cases herr
  · intro hlt
    rw [hspec, if_pos hlt]
  · intro hb
    rw [hspec, if_neg (by omega)]
    exact ⟨_, rfl⟩
  · intro herr
    exact applyOp_process_deposits_error st now pid a _ herr

/-- Witness for C1 at the Weekly boundary instant `now = 604800`. -/
theorem process_deposits_period_gate_witness :
    (stA.subs 1 7 = some subA) ∧ (stA.pools 1 = some poolA)
    ∧ (((process_deposits stA 604800 1 7 = Except.error Error.PeriodNotElapsed) ↔
          604800 < subA.last_payment + seconds_in_period subA.period)
      ∧ (seconds_in_period SubscriptionPeriod.Weekly = 604800
          ∧ seconds_in_period SubscriptionPeriod.Monthly = 2592000
          ∧ seconds_in_period SubscriptionPeriod.Quarterly = 7776000)
      ∧ (604800 = subA.last_payment + seconds_in_period subA.period →
          ∃ st', process_deposits stA 604800 1 7 = Except.ok st')
      ∧ (process_deposits stA 604800 1 7 = Except.error Error.PeriodNotElapsed →
          applyOp stA (Op.process_deposits 604800 1 7) = stA)) :=
  ⟨rfl, rfl, process_deposits_period_gate stA 604800 1 7 subA poolA rfl rfl⟩

/-- Claim C2: once the period has elapsed, `process_deposits` succeeds,
the pool's `total_balance` grows by exactly the subscription's `amount`,
and the subscription's `last_payment` becomes `now`, both written back. -/
theorem process_deposits_success_effects
    (st : State) (now pid : Nat) (a : Address) (sub : Subscription) (pool : Pool)
    (hs : st.subs pid a = some sub) (hp : st.pools pid = some pool)
    (helapsed : sub.last_payment + seconds_in_period sub.period ≤ now) :
    ∃ st', process_deposits st now pid a = Except.ok st'
      ∧ st'.pools pid = some { pool with total_balance := pool.total_balance + sub.amount }
      ∧ st'.subs pid a = some { sub with last_payment := now } := by
  refine ⟨_, process_deposits_ok_effects st now pid a sub pool hs hp helapsed, ?_, ?_⟩
  · simp
  · simp

/-- Witness for C2: the spec's 200,000,000 Weekly deposit processed at
time 604801. -/
theorem process_deposits_success_effects_witness :
    (stA.subs 1 7 = some subA) ∧ (stA.pools 1 = some poolA)
    ∧ (subA.last_payment + seconds_in_period subA.period ≤ 604801)
    ∧ (∃ st', process_deposits stA 604801 1 7 = Except.ok st'
        ∧ st'.pools 1 = some { poolA with total_balance := poolA.total_balance + subA.amount }
        ∧ st'.subs 1 7 = some { subA with last_payment := 604801 }) :=
  ⟨rfl, rfl, by decide,
   process_deposits_success_effects stA 604801 1 7 subA poolA rfl rfl (by decide)⟩

/-- Claim C3: in every state reachable from the empty store by any
sequence of the four entry points, every stored pool's `total_balance`
is non-negative. -/
theorem reachable_total_balance_nonneg (ops : List Op) (pid : Nat) (pool : Pool)
    (hp : (run ops).pools pid = some pool) : 0 ≤ pool.total_balance :=
  (storeInv_run ops).1 pid pool hp

/-- Witness for C3 on the store produced by a single `create_pool`. -/
theorem reachable_total_balance_nonneg_witness :
    ((run [Op.create_pool "A" 5]).pools 1 = some poolInit)
    ∧ 0 ≤ poolInit.total_balance :=
  ⟨rfl, reachable_total_balance_nonneg [Op.create_pool "A" 5] 1 poolInit rfl⟩

/-- Claim C4: for a stored pool, `withdraw` fails with
`InsufficientBalance` exactly when `amount > total_balance`; the failing
invocation leaves the store unchanged; and a successful one debits
`total_balance` by exactly `amount`. -/
theorem withdraw_balance_guard
    (st : State) (pid : Nat) (a : Address) (amount : Int) (pool : Pool)
    (hp : st.pools pid = some pool) :
    ((withdraw st pid a amount = Except.error Error.InsufficientBalance) ↔
      amount > pool.total_balance)
    ∧ (withdraw st pid a amount = Except.error Error.InsufficientBalance →
        applyOp st (Op.withdraw pid a amount) = st)
    ∧ (amount ≤ pool.total_balance →
        ∃ st', withdraw st pid a amount = Except.ok st'
          ∧ st'.pools pid = some { pool with total_balance := pool.total_balance - amount }) := by
  have hspec := withdraw_spec st pid a amount pool hp
  refine ⟨⟨?_, ?_⟩, ?_, ?_⟩
  · intro herr
    by_contra hng
    rw [hspec, if_neg hng] at herr
    cases herr
  · intro hgt
    rw [hspec, if_pos hgt]
  · intro herr
    exact applyOp_withdraw_error st pid a amount _ herr
  · intro hle
    rw [hspec, if_neg (not_lt.mpr hle)]
    exact ⟨_, rfl, by simp⟩

/-- Witness for C4: withdrawing 1 from a pool with zero balance. -/
theorem withdraw_balance_guard_witness :
    (stA.pools 1 = some poolA)
    ∧ (((withdraw stA 1 7 1 = Except.error Error.InsufficientBalance) ↔
          (1 : Int) > poolA.total_balance)
      ∧ (withdraw stA 1 7 1 = Except.error Error.InsufficientBalance →
          applyOp stA (Op.withdraw 1 7 1) = stA)
      ∧ ((1 : Int) ≤ poolA.total_balance →
          ∃ st', withdraw stA 1 7 1 = Except.ok st'
            ∧ st'.pools 1 = some { poolA with total_balance := poolA.total_balance - 1 })) :=
  ⟨rfl, withdraw_balance_guard stA 1 7 1 poolA rfl⟩

/-- Claim C5: any `amount < MIN_SUBSCRIPTION` makes `subscribe` fail with
`BelowMinimum` and leaves the store unchanged; the check precedes the
pool-existence check, so this holds for any store, including one with no
pool under the given id. -/
theorem subscribe_below_minimum_rejected
    (st : State) (now pid : Nat) (a : Address) (amount : Int)
    (period : SubscriptionPeriod) (hmin : amount < MIN_SUBSCRIPTION) :
    subscribe st now pid a amount period = Except.error Error.BelowMinimum
    ∧ applyOp st (Op.subscribe now pid a amount period) = st := by
  have h : subscribe st now pid a amount period = Except.error Error.BelowMinimum := by
    simp [subscribe, hmin]
  exact ⟨h, applyOp_subscribe_error st now pid a amount period _ h⟩

/-- Witness for C5 on the empty store, whose pool id 42 does not exist. -/
theorem subscribe_below_minimum_rejected_witness :
    ((5 : Int) < MIN_SUBSCRIPTION)
    ∧ (State.empty.pools 42 = none)
    ∧ (subscribe State.empty 0 42 7 5 SubscriptionPeriod.Weekly =
          Except.error Error.BelowMinimum
        ∧ applyOp State.empty (Op.subscribe 0 42 7 5 SubscriptionPeriod.Weekly) =
          State.empty) :=
  ⟨by decide, rfl,
   subscribe_below_minimum_rejected State.empty 0 42 7 5 SubscriptionPeriod.Weekly (by decide)⟩

/-- Claim C6: re-subscribing for an existing `(pool_id, subscriber)` key
with a valid amount overwrites the stored `Subscription` with the new
amount, period and `last_payment = now`, and still increments the pool's
`subscriber_count`, double-counting the subscriber. -/
theorem resubscribe_overwrites_and_double_counts
    (st : State) (now pid : Nat) (a : Address) (amount : Int)
    (period : SubscriptionPeriod) (oldSub : Subscription) (pool : Pool)
    (hs : st.subs pid a = some oldSub) (hp : st.pools pid = some pool)
    (hmin : MIN_SUBSCRIPTION ≤ amount) :
    ∃ st', subscribe st now pid a amount period = Except.ok st'
      ∧ st'.subs pid a = some { subscriber := a, pool_id := pid, amount := amount,
                                period := period, last_payment := now }
      ∧ st'.pools pid = some { pool with subscriber_count := pool.subscriber_count + 1 } := by
  rw [subscribe_spec st now pid a amount period pool hp, if_neg (not_lt.mpr hmin)]
  exact ⟨_, rfl, by simp, by simp⟩

/-- Witness for C6: re-subscribing subscriber 7 to pool 1 of `stA`. -/
theorem resubscribe_overwrites_and_double_counts_witness :
    (stA.subs 1 7 = some subA) ∧ (stA.pools 1 = some poolA)
    ∧ (MIN_SUBSCRIPTION ≤ (300000000 : Int))
    ∧ (∃ st', subscribe stA 50 1 7 300000000 SubscriptionPeriod.Monthly = Except.ok st'
        ∧ st'.subs 1 7 = some { subscriber := 7, pool_id := 1, amount := 300000000,
                                period := SubscriptionPeriod.Monthly, last_payment := 50 }
        ∧ st'.pools 1 = some { poolA with subscriber_count := poolA.subscriber_count + 1 }) :=
  ⟨rfl, rfl, by decide,
   resubscribe_overwrites_and_double_counts stA 50 1 7 300000000
     SubscriptionPeriod.Monthly subA poolA rfl rfl (by decide)⟩

/-- Claim C7: a first `process_deposits` that succeeds credits the pool
once; a second call at any time earlier than that success plus one period
(in particular at the same instant) fails with `PeriodNotElapsed` and
changes nothing, so the amount is credited exactly once. -/
theorem process_deposits_no_double_credit
    (st : State) (now1 now2 pid : Nat) (a : Address) (sub : Subscription) (pool : Pool)
    (hs : st.subs pid a = some sub) (hp : st.pools pid = some pool)
    (helapsed : sub.last_payment + seconds_in_period sub.period ≤ now1)
    (hsoon : now2 < now1 + seconds_in_period sub.period) :
    ∃ st', process_deposits st now1 pid a = Except.ok st'
      ∧ st'.pools pid = some { pool with total_balance := pool.total_balance + sub.amount }
      ∧ process_deposits st' now2 pid a = Except.error Error.PeriodNotElapsed
      ∧ applyOp st' (Op.process_deposits now2 pid a) = st' := by
  have hok := process_deposits_ok_effects st now1 pid a sub pool hs hp helapsed
  have hs2 : (State.mk
      (fun i => if i = pid then some { pool with total_balance := pool.total_balance + sub.amount }
                else st.pools i)
      (fun i x => if i = pid ∧ x = a then some { sub with last_payment := now1 }
                  else st.subs i x)
      st.poolCount).subs pid a = some { sub with last_payment := now1 } := by simp
  have hp2 : (State.mk
      (fun i => if i = pid then some { pool with total_balance := pool.total_balance + sub.amount }
                else st.pools i)
      (fun i x => if i = pid ∧ x = a then some { sub with last_payment := now1 }
                  else st.subs i x)
      st.poolCount).pools pid =
      some { pool with total_balance := pool.total_balance + sub.amount } := by simp
  have herr2 : process_deposits (State.mk
      (fun i => if i = pid then some { pool with total_balance := pool.total_balance + sub.amount }
                else st.pools i)
      (fun i x => if i = pid ∧ x = a then some { sub with last_payment := now1 }
                  else st.subs i x)
      st.poolCount) now2 pid a = Except.error Error.PeriodNotElapsed := by
    rw [process_deposits_spec _ now2 pid a _ _ hs2 hp2, if_pos (by simpa using hsoon)]
  exact ⟨_, hok, by simp, herr2,
    applyOp_process_deposits_error _ now2 pid a _ herr2⟩

/-- Witness for C7: two Weekly deposits processed at the same instant. -/
theorem process_deposits_no_double_credit_witness :
    (stA.subs 1 7 = some subA) ∧ (stA.pools 1 = some poolA)
    ∧ (subA.last_payment + seconds_in_period subA.period ≤ 604800)
    ∧ (604800 < 604800 + seconds_in_period subA.period)
    ∧ (∃ st', process_deposits stA 604800 1 7 = Except.ok st'
        ∧ st'.pools 1 = some { poolA with total_balance := poolA.total_balance + subA.amount }
        ∧ process_deposits st' 604800 1 7 = Except.error Error.PeriodNotElapsed
        ∧ applyOp st' (Op.process_deposits 604800 1 7) = st') :=
  ⟨rfl, rfl, by decide, by decide,
   process_deposits_no_double_credit stA 604800 604800 1 7 subA poolA rfl rfl
     (by decide) (by decide)⟩

/-- Claim C8: from the empty store the n-th `create_pool` call returns id
n (ids are `[1, 2, ...]`, strictly increasing), and the `pool_id` field of
a stored pool record is never changed by any later invocation. -/
theorem create_pool_ids_sequential_and_immutable :
    (∀ args : List (String × Address),
      (createSeq args State.empty).1 = List.range' 1 args.length)
    ∧ (∀ (ops : List Op) (op : Op) (pid : Nat) (p : Pool),
        (run ops).pools pid = some p →
        ∃ p', (run (ops ++ [op])).pools pid = some p' ∧ p'.pool_id = p.pool_id) := by
  constructor
  · intro args
    rw [createSeq_ids args State.empty]
    simp [State.empty]
  · intro ops op pid p hp
    rw [run_append_single]
    have hb := keysBounded_run ops
    cases op with
    | create_pool name token =>
      refine ⟨p, ?_, rfl⟩
      have hne : pid ≠ (run ops).poolCount.getD 0 + 1 := by
        have := hb pid p hp
        omega
      simp only [applyOp, create_pool]
      rw [if_neg hne]
      exact hp
    | subscribe now pid0 a amount period =>
      cases hc : subscribe (run ops) now pid0 a amount period with
      | error e =>
        rw [applyOp_subscribe_error _ _ _ _ _ _ _ hc]
        exact ⟨p, hp, rfl⟩
      | ok st' =>
        obtain ⟨pool, hps, hmin, hst⟩ := subscribe_ok_inv hc
        simp only [applyOp, hc, hst]
        by_cases hid : pid = pid0
        · subst hid
          rw [hps] at hp
          cases hp
          exact ⟨{ p with subscriber_count := p.subscriber_count + 1 }, by simp, rfl⟩
        · exact ⟨p, by simp [hid, hp], rfl⟩
    | process_deposits now pid0 a =>
      cases hc : process_deposits (run ops) now pid0 a with
      | error e =>
        rw [applyOp_process_deposits_error _ _ _ _ _ hc]
        exact ⟨p, hp, rfl⟩
      | ok st' =>
        obtain ⟨sub, pool, hss, hps, helapsed, hst⟩ := process_deposits_ok_inv hc
        simp only [applyOp, hc, hst]
        by_cases hid : pid = pid0
        · subst hid
          rw [hps] at hp
          cases hp
          exact ⟨{ p with total_balance := p.total_balance + sub.amount }, by simp, rfl⟩
        · exact ⟨p, by simp [hid, hp], rfl⟩
    | withdraw pid0 a amount =>
      cases hc : withdraw (run ops) pid0 a amount with
      | error e =>
        rw [applyOp_withdraw_error _ _ _ _ _ hc]
        exact ⟨p, hp, rfl⟩
      | ok st' =>
        obtain ⟨pool, hps, hle, hst⟩ := withdraw_ok_inv hc
        simp only [applyOp, hc, hst]
        by_cases hid : pid = pid0
        · subst hid
          rw [hps] at hp
          cases hp
          exact ⟨{ p with total_balance := p.total_balance - amount }, by simp, rfl⟩
        · exact ⟨p, by simp [hid, hp], rfl⟩

/-- Witness for C8: two creations return ids 1, 2, and a second creation
leaves the first pool's `pool_id` intact. -/
theorem create_pool_ids_sequential_and_immutable_witness :
    ((createSeq [("A", 5), ("B", 6)] State.empty).1 = List.range' 1 2)
    ∧ ((run [Op.create_pool "A" 5]).pools 1 = some poolInit)
    ∧ (∃ p', (run ([Op.create_pool "A" 5] ++ [Op.create_pool "B" 6])).pools 1 = some p'
          ∧ p'.pool_id = poolInit.pool_id) :=
  ⟨(create_pool_ids_sequential_and_immutable).1 [("A", 5), ("B", 6)], rfl,
   (create_pool_ids_sequential_and_immutable).2
     [Op.create_pool "A" 5] (Op.create_pool "B" 6) 1 poolInit rfl⟩

/-- Claim C9: a freshly created pool round-trips through `get_pool` with
the requested name and token, zero balance and zero subscribers; and
`get_pool` fails with `PoolNotFound` on any id with no stored record. -/
theorem create_pool_get_pool_roundtrip :
    (∀ (st : State) (name : String) (token : Address),
      get_pool (create_pool st name token).2 (create_pool st name token).1 =
        Except.ok { pool_id := (create_pool st name token).1, name := name, token := token,
                    total_balance := 0, subscriber_count := 0 })
    ∧ (∀ (st : State) (pid : Nat), st.pools pid = none →
        get_pool st pid = Except.error Error.PoolNotFound) := by
  constructor
  · intro st name token
    simp [create_pool, get_pool]
  · intro st pid h
    simp [get_pool, h]

/-- Witness for C9: the first pool of the empty store round-trips, and the
empty store has no pool 42. -/
theorem create_pool_get_pool_roundtrip_witness :
    (get_pool (create_pool State.empty "A" 5).2 (create_pool State.empty "A" 5).1 =
      Except.ok { pool_id := (create_pool State.empty "A" 5).1, name := "A", token := 5,
                  total_balance := 0, subscriber_count := 0 })
    ∧ (State.empty.pools 42 = none)
    ∧ (get_pool State.empty 42 = Except.error Error.PoolNotFound) :=
  ⟨(create_pool_get_pool_roundtrip).1 State.empty "A" 5, rfl,
   (create_pool_get_pool_roundtrip).2 State.empty 42 rfl⟩

/-- Claim C10: on any reachable store, withdrawing a strictly negative
amount never hits `InsufficientBalance`: the call succeeds and the pool's
`total_balance` grows by `|amount|`, because the guard only rejects
`amount > total_balance`. -/
theorem withdraw_negative_amount_credits
    (ops : List Op) (pid : Nat) (a : Address) (amount : Int) (pool : Pool)
    (hp : (run ops).pools pid = some pool) (hneg : amount < 0) :
    ∃ st', withdraw (run ops) pid a amount = Except.ok st'
      ∧ st'.pools pid = some { pool with total_balance := pool.total_balance + |amount| } := by
  have h0 : 0 ≤ pool.total_balance := (storeInv_run ops).1 pid pool hp
  have hng : ¬ amount > pool.total_balance := not_lt.mpr (le_trans hneg.le h0)
  rw [withdraw_spec (run ops) pid a amount pool hp, if_neg hng]
  refine ⟨_, rfl, ?_⟩
  have habs : pool.total_balance - amount = pool.total_balance + |amount| := by
    rw [abs_of_neg hneg]
    ring
  simp [habs]

/-- Witness for C10: withdrawing -5 from a freshly created pool credits 5. -/
theorem withdraw_negative_amount_credits_witness :
    ((run [Op.create_pool "A" 5]).pools 1 = some poolInit)
    ∧ ((-5 : Int) < 0)
    ∧ (∃ st', withdraw (run [Op.create_pool "A" 5]) 1 7 (-5) = Except.ok st'
        ∧ st'.pools 1 =
            some { poolInit with total_balance := poolInit.total_balance + |(-5 : Int)| }) :=
  ⟨rfl, by decide,
   withdraw_negative_amount_credits [Op.create_pool "A" 5] 1 7 (-5) poolInit rfl (by decide)⟩

end NovaFund
